import Mathlib

/-!
Verification of the form-validation and delivery logic of
`src/streamlit_landing_app.py` (landing page with booking form).

The Python module's pure core is shallowly embedded here:

* `EMAIL_RE = re.compile(r"^[\w\-.]+@([\w-]+\.)+[\w-]{2,}$")` and
  `PHONE_RE = re.compile(r"^[0-9 +()\-]{7,}$")`, used through `re.match`,
  become executable matchers on `List Char`.  Two points of Python regex
  semantics are modelled explicitly: `re.match` anchors at the start, and
  a final `$` also matches just before a single newline at the end of the
  input (`stripNL`).  The character class `\w` is modelled at its ASCII
  core (letters, digits, underscore).
* `is_valid_email` / `is_valid_phone` take an `Option String`, because the
  Python functions coerce `None` (and `""`) through `s or ""`.
* The `validate_lite` helpers (one inside the Streamlit test panel, one in
  CLI mode), the submit-handler error collection, and the delivery
  pipeline with its `mailto:` fallback are embedded as pure functions;
  dict results become lists of keys in insertion order, Streamlit secrets
  become `Option String` fields, and the two network channels become
  oracle parameters describing the outcome the network would give.
-/

namespace Landing

/-- ASCII core of Python regex class `\w`: letters, digits, underscore. -/
def isWordChar (c : Char) : Bool := c.isAlphanum || c = '_'

/-- Character class `[\w\-.]` of the local part of `EMAIL_RE`. -/
def isLocalChar (c : Char) : Bool := isWordChar c || c = '-' || c = '.'

/-- Character class `[\w-]` of the domain labels of `EMAIL_RE`. -/
def isLabelChar (c : Char) : Bool := isWordChar c || c = '-'

/-- Character class `[0-9 +()\-]` of `PHONE_RE`. -/
def isPhoneChar (c : Char) : Bool :=
  c.isDigit || c = ' ' || c = '+' || c = '(' || c = ')' || c = '-'

/-- Python `$` semantics for a fully anchored pattern: a final `$` may match
just before one trailing newline, so matching the whole input is matching
the input with at most one trailing newline removed. -/
def stripNL : List Char → List Char
  | [] => []
  | [c] => if c = '\n' then [] else [c]
  | c :: c2 :: rest => c :: stripNL (c2 :: rest)

/-- Deterministic scanner for the domain `([\w-]+\.)+[\w-]{2,}` of
`EMAIL_RE`: `n` counts the length of the label being read, `seen` records
whether a dot-terminated label has been completed.  Determinism is sound
because `.` is not a label character, so the split into labels is forced. -/
def domGo : List Char → Nat → Bool → Bool
  | [], n, seen => seen && decide (2 ≤ n)
  | c :: rest, n, seen =>
    if c = '.' then decide (0 < n) && domGo rest 0 true
    else if isLabelChar c then domGo rest (n + 1) seen
    else false

/-- Matcher for `([\w-]+\.)+[\w-]{2,}` anchored at both ends. -/
def matchDomain (cs : List Char) : Bool := domGo cs 0 false

/-- Matcher for `[\w\-.]+@([\w-]+\.)+[\w-]{2,}` anchored at both ends.
Since `@` is not a local character, the greedy `[\w\-.]+` is exactly the
maximal local-character prefix, which must be nonempty and be followed
by `@`. -/
def emailCore (cs : List Char) : Bool :=
  match cs.takeWhile isLocalChar, cs.dropWhile isLocalChar with
  | _ :: _, c :: dom => c == '@' && matchDomain dom
  | _, _ => false

/-- Matcher for `[0-9 +()\-]{7,}` anchored at both ends. -/
def phoneCore (cs : List Char) : Bool :=
  decide (7 ≤ cs.length) && cs.all isPhoneChar

/-- Python `s or ""`: `None` and `""` both become `""`. -/
def orEmpty : Option String → String
  | none => ""
  | some s => s

/-- Embedding of `is_valid_email(s): return bool(EMAIL_RE.match(s or ""))`.
The argument is an `Option String` because the Python caller may pass
`None`. -/
def is_valid_email (s : Option String) : Bool :=
  emailCore (stripNL (orEmpty s).data)

/-- Embedding of `is_valid_phone(s): return bool(PHONE_RE.match(s or ""))`. -/
def is_valid_phone (s : Option String) : Bool :=
  phoneCore (stripNL (orEmpty s).data)

example : is_valid_email (some "mario.rossi@mail.it") = true := by decide
example : is_valid_email (some "mario@sub.mail.it") = true := by decide
example : is_valid_email (some "mario@") = false := by decide
example : is_valid_email (some "mario@mail") = false := by decide
example : is_valid_phone (some "+39 333 123 4567") = true := by decide
example : is_valid_phone (some "(333) 123-4567") = true := by decide
example : is_valid_phone (some "123") = false := by decide
example : is_valid_phone (some "1234567\n") = true := by decide
example : is_valid_email (some "a@b.c") = false := by decide
example : is_valid_email (some "a@b.cc\n") = true := by decide
example : is_valid_email (some "@b.cc") = false := by decide
example : is_valid_email (some "a@b..cc") = false := by decide

/-- Python `str.strip()` at its ASCII-whitespace core: remove leading and
trailing whitespace characters. -/
def pyStrip (s : String) : String :=
  String.mk (((s.data.dropWhile Char.isWhitespace).reverse.dropWhile
    Char.isWhitespace).reverse)

/-- Truthiness of an optional string in Python: `None` and `""` are falsy. -/
def truthy : Option String → Bool
  | none => false
  | some s => !s.data.isEmpty

/-- Python string comparison `a < b`: lexicographic on code points. -/
def pyStrLt (a b : String) : Bool := decide (a.data < b.data)

/-- Shape of the dictionary consumed by `validate_lite`: the required form
fields, absent keys modelled as `none` (`f.get(...)` then yields `None`). -/
structure LiteForm where
  name : Option String
  email : Option String
  phone : Option String
  date : Option String
  consent : Bool
deriving DecidableEq

/-- Embedding of the `validate_lite` helper defined inside the Streamlit
test panel (lines 290-309).  The Python dict `e` (each key set at most
once, insertion order `name`, `email`, `phone`, `date`, `consent`) is
modelled as the list of its keys.  `datetime.now().strftime("%Y-%m-%d")`
is the parameter `today`; the comparison `f["date"] < today` is Python
string comparison, i.e. lexicographic on code points, which never throws,
so the `except` branch adding a date error is unreachable. -/
def validate_lite (today : String) (f : LiteForm) : List String :=
  let e : List String := []
  let e := if !truthy f.name || decide ((pyStrip (f.name.getD "")).length < 2)
    then e ++ ["name"] else e
  let e := if !is_valid_email (some (f.email.getD "")) then e ++ ["email"] else e
  let e := if !is_valid_phone (some (f.phone.getD "")) then e ++ ["phone"] else e
  let e := if !truthy f.date then e ++ ["date"]
    else if pyStrLt (f.date.getD "") today then e ++ ["date"] else e
  let e := if !f.consent then e ++ ["consent"] else e
  e

/-- Embedding of the `validate_lite` helper defined inside `run_cli_mode`
(lines 358-376); its Python body is textually identical to the panel one. -/
def validate_lite_cli (today : String) (f : LiteForm) : List String :=
  let e : List String := []
  let e := if !truthy f.name || decide ((pyStrip (f.name.getD "")).length < 2)
    then e ++ ["name"] else e
  let e := if !is_valid_email (some (f.email.getD "")) then e ++ ["email"] else e
  let e := if !is_valid_phone (some (f.phone.getD "")) then e ++ ["phone"] else e
  let e := if !truthy f.date then e ++ ["date"]
    else if pyStrLt (f.date.getD "") today then e ++ ["date"] else e
  let e := if !f.consent then e ++ ["consent"] else e
  e

/-- Condition of `if not f.get("name") or len(f["name"].strip()) < 2`. -/
def nameFails (f : LiteForm) : Bool :=
  !truthy f.name || decide ((pyStrip (f.name.getD "")).length < 2)

/-- Condition of `if not is_valid_email(f.get("email", ""))`. -/
def emailFails (f : LiteForm) : Bool := !is_valid_email (some (f.email.getD ""))

/-- Condition of `if not is_valid_phone(f.get("phone", ""))`. -/
def phoneFails (f : LiteForm) : Bool := !is_valid_phone (some (f.phone.getD ""))

/-- Condition under which `validate_lite` records a date error: missing or
falsy date, or a date string lexicographically before today. -/
def dateFails (today : String) (f : LiteForm) : Bool :=
  !truthy f.date || pyStrLt (f.date.getD "") today

/-- Condition of `if not f.get("consent")`. -/
def consentFails (f : LiteForm) : Bool := !f.consent

/-- State of the booking form in the Streamlit submit handler: the text
inputs are strings (Streamlit text inputs yield `""` by default, never
`None`), the date input is modelled as the ISO-formatted date it holds
(`none` standing for a falsy value, making the `if not ev_date` check
visible), and consent is a checkbox boolean. -/
structure FormInput where
  hp : String
  name : String
  phone : String
  email : String
  location : String
  message : String
  evDate : Option String
  consent : Bool
deriving DecidableEq

/-- Embedding of the error collection of the submit handler
(lines 156-169): the Italian messages are appended in source order; the
honeypot is flagged when `hp.strip()` is truthy, i.e. contains a
non-whitespace character. -/
def formErrors (f : FormInput) : List String :=
  let e : List String := []
  let e := if !(pyStrip f.hp).data.isEmpty then e ++ ["Rilevato spam."] else e
  let e := if f.name.data.isEmpty || decide ((pyStrip f.name).length < 2)
    then e ++ ["Inserisci il tuo nome."] else e
  let e := if !is_valid_email (some f.email) then e ++ ["Email non valida."] else e
  let e := if !is_valid_phone (some f.phone)
    then e ++ ["Numero di telefono non valido."] else e
  let e := if f.evDate.isNone then e ++ ["Scegli una data."] else e
  let e := if !f.consent
    then e ++ ["Serve il consenso per poter essere ricontattati."] else e
  e

/-- Module constant `COMPANY_NAME`. -/
def COMPANY_NAME : String := "Il Nodo del Vento"

/-- Module constant `CONTACT_EMAIL` (the fixed operator contact address). -/
def CONTACT_EMAIL : String := "tua@mail.com"

/-- Python `str.replace(' ', '%20')`: every space becomes `%20`. -/
def replaceSpaces (s : String) : String :=
  String.mk ((s.data.map fun c => if c = ' ' then ['%', '2', '0'] else [c]).flatten)

/-- Payload built from the submitted form (lines 179-187); the `_subject`
entry is a fixed string and is kept implicit. -/
structure Payload where
  evento_data : String
  nome : String
  telefono : String
  email : String
  location : String
  messaggio : String
deriving DecidableEq

/-- Payload construction from the form state, with `d` the ISO rendering
`ev_date.strftime("%Y-%m-%d")` of the chosen date. -/
def mkPayload (f : FormInput) (d : String) : Payload :=
  { evento_data := d, nome := f.name, telefono := f.phone,
    email := f.email, location := f.location, messaggio := f.message }

/-- Subject component of the fallback link:
`f"Richiesta%20{COMPANY_NAME.replace(' ', '%20')}"`. -/
def mailtoSubject : String := "Richiesta%20" ++ replaceSpaces COMPANY_NAME

/-- Body component of the fallback link (lines 237-245): fixed Italian text
and the submission fields, joined with literal `%0D%0A` line breaks; the
field values are interpolated verbatim. -/
def mailtoBodyStr (p : Payload) : String :=
  "Ciao,%0D%0Avorrei prenotare lo spettacolo " ++ COMPANY_NAME ++ ".%0D%0A"
    ++ "Data evento: " ++ p.evento_data ++ "%0D%0A"
    ++ "Nome: " ++ p.nome ++ "%0D%0A"
    ++ "Telefono: " ++ p.telefono ++ "%0D%0A"
    ++ "Email: " ++ p.email ++ "%0D%0A"
    ++ "Luogo: " ++ p.location ++ "%0D%0A"
    ++ "Messaggio: " ++ p.messaggio

/-- Fallback `mailto` link exactly as concatenated at lines 233-246. -/
def buildMailto (p : Payload) : String :=
  "mailto:" ++ CONTACT_EMAIL ++ "?subject=" ++ mailtoSubject
    ++ "&body=" ++ mailtoBodyStr p

/-- Streamlit secrets relevant to delivery; a missing key is `none`. -/
structure Secrets where
  FORMSPREE_ENDPOINT : Option String
  EMAIL_HOST : Option String
  EMAIL_PORT : Option String
  EMAIL_USER : Option String
  EMAIL_PASS : Option String
  EMAIL_TO : Option String
deriving DecidableEq

/-- Check `all(k in st.secrets for k in [...])` for the five SMTP keys:
key presence, not truthiness. -/
def smtpConfigured (s : Secrets) : Bool :=
  s.EMAIL_HOST.isSome && s.EMAIL_PORT.isSome && s.EMAIL_USER.isSome
    && s.EMAIL_PASS.isSome && s.EMAIL_TO.isSome

/-- Outcome the network would give to the Formspree POST, as observed by
the code: `r.ok`, a non-2xx status, or a raised exception (caught). -/
inductive HttpResult where
  | ok : HttpResult
  | notOk (status : Nat) : HttpResult
  | raised (msg : String) : HttpResult
deriving DecidableEq

/-- Outcome the network would give to the SMTP send: success or a raised
exception (caught). -/
inductive SmtpResult where
  | sentOk : SmtpResult
  | raised (msg : String) : SmtpResult
deriving DecidableEq

/-- Result of the delivery pipeline: either both the success branch
(`st.success`) or the fallback branch (`st.warning` with the `mailto` link
and the optional diagnostic `err_msg`). -/
inductive Outcome where
  | delivered : Outcome
  | fallback (uri : String) (diag : Option String) : Outcome
deriving DecidableEq

/-- Embedding of the delivery pipeline (lines 188-252).  `ra` states
whether the `requests` module imported successfully; `http` and `smtp` are
oracle values describing what each network attempt would return if it were
made.  Both attempts wrap their failure modes in `try/except`, so the
pipeline is total: every path ends in `delivered` or in a `fallback`
outcome, never in an uncaught exception. -/
def deliver (sec : Secrets) (ra : Bool) (http : HttpResult)
    (smtp : SmtpResult) (p : Payload) : Outcome :=
  let sent := false
  let errMsg : Option String := none
  let r1 : Bool × Option String :=
    if truthy sec.FORMSPREE_ENDPOINT && ra then
      match http with
      | .ok => (true, errMsg)
      | .notOk code =>
        (sent, some ("Invio non riuscito (HTTP " ++ toString code ++ ")."))
      | .raised m => (sent, some ("Errore invio: " ++ m))
    else (sent, errMsg)
  let r2 : Bool × Option String :=
    if !r1.1 && smtpConfigured sec then
      match smtp with
      | .sentOk => (true, r1.2)
      | .raised m => (r1.1, some ("Errore SMTP: " ++ m))
    else r1
  if r2.1 then Outcome.delivered else Outcome.fallback (buildMailto p) r2.2

/-- Unreserved RFC 3986 characters and the percent sign: a URL-encoded
string consists of such characters only, so in particular it contains no
raw space.  This renders the phrase "URL-encoded" of the specification. -/
def isUrlEncodedChar (c : Char) : Bool :=
  c.isAlphanum || c = '%' || c = '-' || c = '.' || c = '_' || c = '~'

/-- A string is URL-encoded when all its characters are. -/
def isUrlEncoded (s : String) : Bool := s.data.all isUrlEncodedChar

/-- The given chunks occur in the given order, without overlap, inside the
character list. -/
def inOrder : List (List Char) → List Char → Prop
  | [], _ => True
  | p :: ps, s => ∃ a b, s = a ++ p ++ b ∧ inOrder ps b

/-- Fixture: the valid form of the embedded self-tests (with a concrete
future date standing for "tomorrow"). -/
def formOk : LiteForm :=
  { name := some "Mario Rossi", email := some "ok@mail.it",
    phone := some "+39 333 123 4567", date := some "2026-01-02",
    consent := true }

/-- Fixture: `form_no_consent` of the embedded self-tests. -/
def formNoConsent : LiteForm := { formOk with consent := false }

/-- Fixture: a concrete "current date" for witnesses. -/
def todayFix : String := "2026-01-01"

/-- Fixture: a submit-handler form state with every field valid and an
empty honeypot. -/
def formInputOk : FormInput :=
  { hp := "", name := "Mario Rossi", phone := "+39 333 123 4567",
    email := "ok@mail.it", location := "Roma", message := "Ciao",
    evDate := some "2026-01-02", consent := true }

/-- Fixture: same form state with a whitespace-only (hence non-empty)
honeypot value. -/
def formInputWsHp : FormInput := { formInputOk with hp := " " }

/-- Fixture: a secrets store with no delivery channel configured. -/
def secNone : Secrets :=
  { FORMSPREE_ENDPOINT := none, EMAIL_HOST := none, EMAIL_PORT := none,
    EMAIL_USER := none, EMAIL_PASS := none, EMAIL_TO := none }

/-- Fixture: the payload built from `formInputOk`. -/
def payloadFix : Payload := mkPayload formInputOk "2026-01-02"

/-! Helper lemmas about the matchers. -/

lemma takeWhile_append_not {p : Char → Bool} (l : List Char) (x : Char)
    (rest : List Char) (hl : ∀ c ∈ l, p c = true) (hx : p x = false) :
    (l ++ x :: rest).takeWhile p = l ∧ (l ++ x :: rest).dropWhile p = x :: rest := by
  induction l with
  | nil => simp [List.takeWhile_cons, List.dropWhile_cons, hx]
  | cons a l ih =>
    have ha : p a = true := hl a (by simp)
    have h := ih (fun c hc => hl c (by simp [hc]))
    simp [List.takeWhile_cons, List.dropWhile_cons, ha, h.1, h.2]

lemma emailCore_decomp {cs : List Char} (h : emailCore cs = true) :
    ∃ pre dom, cs = pre ++ '@' :: dom ∧ pre ≠ []
      ∧ (∀ c ∈ pre, isLocalChar c = true) ∧ matchDomain dom = true := by
  unfold emailCore at h
  rcases h1 : cs.takeWhile isLocalChar with _ | ⟨a, l⟩ <;> rw [h1] at h
  · simp at h
  rcases h2 : cs.dropWhile isLocalChar with _ | ⟨b, rest⟩ <;> rw [h2] at h
  · simp at h
  simp only [Bool.and_eq_true, beq_iff_eq] at h
  refine ⟨a :: l, rest, ?_, by simp, ?_, h.2⟩
  · have hsplit := List.takeWhile_append_dropWhile (p := isLocalChar) (l := cs)
    rw [h1, h2] at hsplit
    rw [← hsplit, h.1]
  · intro c hc
    rw [← h1] at hc
    exact List.mem_takeWhile_imp hc

lemma domGo_dot_mem : ∀ (cs : List Char) (n : Nat),
    domGo cs n false = true → '.' ∈ cs := by
  intro cs
  induction cs with
  | nil => intro n h; simp [domGo] at h
  | cons c rest ih =>
    intro n h
    by_cases hc : c = '.'
    · simp [hc]
    · simp only [domGo, if_neg hc] at h
      by_cases hl : isLabelChar c = true
      · rw [if_pos hl] at h
        exact List.mem_cons_of_mem _ (ih _ h)
      · rw [if_neg hl] at h
        exact absurd h (by simp)

lemma split_at_first_unique {a : Char} :
    ∀ {pre post pre2 post2 : List Char}, pre ++ a :: post = pre2 ++ a :: post2 →
      a ∉ pre → a ∉ pre2 → pre = pre2 ∧ post = post2 := by
  intro pre
  induction pre with
  | nil =>
    intro post pre2 post2 heq _ h2
    cases pre2 with
    | nil => simpa using heq
    | cons b l =>
      simp only [List.nil_append, List.cons_append, List.cons.injEq] at heq
      exact absurd (heq.1 ▸ List.mem_cons_self b l) h2
  | cons b l ih =>
    intro post pre2 post2 heq h1 h2
    cases pre2 with
    | nil =>
      simp only [List.nil_append, List.cons_append, List.cons.injEq] at heq
      exact absurd (heq.1 ▸ List.mem_cons_self b l) h1
    | cons b2 l2 =>
      simp only [List.cons_append, List.cons.injEq] at heq
      have h := ih heq.2 (fun hm => h1 (List.mem_cons_of_mem _ hm))
        (fun hm => h2 (List.mem_cons_of_mem _ hm))
      exact ⟨by rw [heq.1, h.1], h.2⟩

lemma stripNL_eq_self_or (cs : List Char) :
    stripNL cs = cs ∨ cs = stripNL cs ++ ['\n'] := by
  induction cs with
  | nil => left; rfl
  | cons c rest ih =>
    cases rest with
    | nil =>
      by_cases hc : c = '\n'
      · right; simp [stripNL, hc]
      · left; simp [stripNL, hc]
    | cons c2 rest2 =>
      rcases ih with h | h
      · left; show c :: stripNL (c2 :: rest2) = c :: c2 :: rest2; rw [h]
      · right
        show c :: c2 :: rest2 = c :: stripNL (c2 :: rest2) ++ ['\n']
        rw [List.cons_append, ← h]

lemma stripNL_of_no_newline : ∀ {cs : List Char},
    (∀ c ∈ cs, c ≠ '\n') → stripNL cs = cs := by
  intro cs h
  rcases stripNL_eq_self_or cs with heq | heq
  · exact heq
  · exact absurd (heq ▸ List.mem_append_right _ (by simp))
      (by intro hm; exact h '\n' hm rfl)

lemma stripNL_length_le (cs : List Char) : (stripNL cs).length ≤ cs.length := by
  rcases stripNL_eq_self_or cs with h | h
  · rw [h]
  · conv_rhs => rw [h]
    simp

lemma mem_of_mem_stripNL {c : Char} {cs : List Char}
    (h : c ∈ stripNL cs) : c ∈ cs := by
  rcases stripNL_eq_self_or cs with heq | heq
  · rwa [heq] at h
  · rw [heq]; exact List.mem_append_left _ h

lemma domGo_label_run : ∀ (lbl : List Char) (rest : List Char) (n : Nat)
    (seen : Bool), (∀ c ∈ lbl, isLabelChar c = true) →
    domGo (lbl ++ rest) n seen = domGo rest (n + lbl.length) seen := by
  intro lbl
  induction lbl with
  | nil => intro rest n seen _; rfl
  | cons a l ih =>
    intro rest n seen hl
    have ha : isLabelChar a = true := hl a (by simp)
    have hne : a ≠ '.' := by
      intro hc; rw [hc] at ha; exact absurd ha (by decide)
    show domGo (a :: (l ++ rest)) n seen = _
    simp only [domGo, if_neg hne, if_pos ha]
    rw [ih rest (n + 1) seen (fun c hc => hl c (by simp [hc]))]
    congr 1
    simp only [List.length_cons]
    omega

lemma emailCore_pos (loc sub tld : List Char) (h1 : loc ≠ [])
    (h2 : ∀ c ∈ loc, isLocalChar c = true) (h3 : sub ≠ [])
    (h4 : ∀ c ∈ sub, isLabelChar c = true)
    (h5 : ∀ c ∈ tld, isLabelChar c = true) (h6 : 2 ≤ tld.length) :
    emailCore (loc ++ '@' :: (sub ++ '.' :: tld)) = true := by
  obtain ⟨htw, hdw⟩ :=
    takeWhile_append_not loc '@' (sub ++ '.' :: tld) h2 (by decide)
  unfold emailCore
  rw [htw, hdw]
  rcases loc with _ | ⟨a, l⟩
  · exact absurd rfl h1
  show ('@' == '@' && matchDomain (sub ++ '.' :: tld)) = true
  simp only [beq_self_eq_true, Bool.true_and]
  unfold matchDomain
  rw [domGo_label_run sub ('.' :: tld) 0 false h4]
  show domGo ('.' :: tld) (0 + sub.length) false = true
  simp only [domGo, if_pos rfl]
  have hpos : 0 < sub.length := List.length_pos.mpr h3
  have htl : domGo tld 0 true = true := by
    conv_lhs => rw [← List.append_nil tld]
    rw [domGo_label_run tld [] 0 true h5]
    simp [domGo, h6]
  simp [hpos, htl]

/-! Structural lemmas about the validators over forms. -/

lemma validate_lite_eq (today : String) (f : LiteForm) :
    validate_lite today f =
      (if nameFails f then ["name"] else [])
        ++ (if emailFails f then ["email"] else [])
        ++ (if phoneFails f then ["phone"] else [])
        ++ (if dateFails today f then ["date"] else [])
        ++ (if consentFails f then ["consent"] else []) := by
  unfold validate_lite nameFails emailFails phoneFails dateFails consentFails
  by_cases h1 : (!truthy f.name
      || decide ((pyStrip (f.name.getD "")).length < 2)) = true <;>
  by_cases h2 : is_valid_email (some (f.email.getD "")) = true <;>
  by_cases h3 : is_valid_phone (some (f.phone.getD "")) = true <;>
  by_cases h4 : truthy f.date = true <;>
  by_cases h5 : pyStrLt (f.date.getD "") today = true <;>
  by_cases h6 : f.consent = true <;>
  simp [h1, h2, h3, h4, h5, h6]

lemma mem_validate_lite (today : String) (f : LiteForm) (k : String) :
    k ∈ validate_lite today f ↔
      (k = "name" ∧ nameFails f = true) ∨ (k = "email" ∧ emailFails f = true)
      ∨ (k = "phone" ∧ phoneFails f = true)
      ∨ (k = "date" ∧ dateFails today f = true)
      ∨ (k = "consent" ∧ consentFails f = true) := by
  rw [validate_lite_eq]
  cases h1 : nameFails f <;> cases h2 : emailFails f <;>
  cases h3 : phoneFails f <;> cases h4 : dateFails today f <;>
  cases h5 : consentFails f <;> simp

lemma validate_lite_nil_iff (today : String) (f : LiteForm) :
    validate_lite today f = [] ↔
      nameFails f = false ∧ emailFails f = false ∧ phoneFails f = false
        ∧ dateFails today f = false ∧ consentFails f = false := by
  rw [validate_lite_eq]
  cases h1 : nameFails f <;> cases h2 : emailFails f <;>
  cases h3 : phoneFails f <;> cases h4 : dateFails today f <;>
  cases h5 : consentFails f <;> simp

lemma formErrors_spam_cons (f : FormInput)
    (h : (pyStrip f.hp).data.isEmpty = false) :
    ∃ rest, formErrors f = "Rilevato spam." :: rest := by
  unfold formErrors
  simp only [h]
  by_cases h2 : (f.name.data.isEmpty
      || decide ((pyStrip f.name).length < 2)) = true <;>
  by_cases h3 : is_valid_email (some f.email) = true <;>
  by_cases h4 : is_valid_phone (some f.phone) = true <;>
  by_cases h5 : f.evDate.isNone <;>
  by_cases h6 : f.consent = true <;>
  simp [h2, h3, h4, h5, h6]

lemma buildMailto_length_pos (p : Payload) : 0 < (buildMailto p).length := by
  unfold buildMailto
  simp only [String.length_append]
  have h : 0 < ("mailto:" : String).length := by decide
  omega

/-! Claim theorems. -/

/-- C1: when no Formspree endpoint is configured and the SMTP credentials
are not all present, the pipeline makes no network attempt and always
returns the fallback outcome carrying the non-empty `mailto` compose link
and no diagnostic, for every valid submission and whatever the channel
oracles would have answered; the embedding is a total function, mirroring
that every failure mode of the Python code on this path is caught. -/
theorem deliver_no_channel_fallback (sec : Secrets) (ra : Bool)
    (http : HttpResult) (smtp : SmtpResult) (f : FormInput) (d : String)
    (_hval : formErrors f = []) (_hd : f.evDate = some d)
    (h1 : sec.FORMSPREE_ENDPOINT = none) (h2 : smtpConfigured sec = false) :
    deliver sec ra http smtp (mkPayload f d)
      = Outcome.fallback (buildMailto (mkPayload f d)) none
    ∧ 0 < (buildMailto (mkPayload f d)).length := by
  refine ⟨?_, buildMailto_length_pos _⟩
  unfold deliver
  rw [h1]
  simp [truthy, h2]

/-- C1 witness: with an empty secrets store, the valid fixture goes
straight to the fallback link. -/
theorem deliver_no_channel_fallback_witness :
    deliver secNone true HttpResult.ok SmtpResult.sentOk payloadFix
      = Outcome.fallback (buildMailto payloadFix) none
    ∧ 0 < (buildMailto payloadFix).length :=
  deliver_no_channel_fallback secNone true HttpResult.ok SmtpResult.sentOk
    formInputOk "2026-01-02" (by decide) rfl rfl rfl

/-- C8 counterexample: the fallback link on the concrete valid payload has
a body that is not URL-encoded: it contains raw spaces (only the line
breaks are pre-encoded as `%0D%0A` and the subject has its spaces encoded
as `%20`); so "URL-encoded subject and body" fails as stated. -/
theorem mailto_body_not_urlencoded_cex :
    buildMailto payloadFix
      = "mailto:" ++ CONTACT_EMAIL ++ "?subject=" ++ mailtoSubject
        ++ "&body=" ++ mailtoBodyStr payloadFix
    ∧ isUrlEncoded (mailtoBodyStr payloadFix) = false
    ∧ (mailtoBodyStr payloadFix).data.contains ' ' = true :=
  ⟨rfl, by decide, by decide⟩

/-- C8 (amended): for every payload the fallback link is a `mailto:` URI
addressed to the fixed operator contact email, with a URL-encoded subject;
its body carries `%0D%0A` line breaks but is otherwise not URL-encoded
(fixed text and field values are interpolated verbatim), and it restates
all submission fields in the fixed order date, name, phone, email,
location, message. -/
theorem mailto_structure_amended (p : Payload) :
    (∃ rest : List Char, (buildMailto p).data
        = ("mailto:" ++ CONTACT_EMAIL ++ "?subject=" ++ mailtoSubject
            ++ "&body=").data ++ rest)
    ∧ isUrlEncoded mailtoSubject = true
    ∧ inOrder
        [("Data evento: " ++ p.evento_data ++ "%0D%0A").data,
         ("Nome: " ++ p.nome ++ "%0D%0A").data,
         ("Telefono: " ++ p.telefono ++ "%0D%0A").data,
         ("Email: " ++ p.email ++ "%0D%0A").data,
         ("Luogo: " ++ p.location ++ "%0D%0A").data,
         ("Messaggio: " ++ p.messaggio).data]
        (buildMailto p).data := by
  refine ⟨⟨(mailtoBodyStr p).data, ?_⟩, by decide, ?_⟩
  · simp [buildMailto, String.data_append]
  · simp only [inOrder]
    refine ⟨("mailto:" ++ CONTACT_EMAIL ++ "?subject=" ++ mailtoSubject
        ++ "&body=" ++ "Ciao,%0D%0Avorrei prenotare lo spettacolo "
        ++ COMPANY_NAME ++ ".%0D%0A").data,
      ("Nome: " ++ p.nome ++ "%0D%0A" ++ "Telefono: " ++ p.telefono
        ++ "%0D%0A" ++ "Email: " ++ p.email ++ "%0D%0A" ++ "Luogo: "
        ++ p.location ++ "%0D%0A" ++ "Messaggio: " ++ p.messaggio).data,
      ?_,
      [], ("Telefono: " ++ p.telefono ++ "%0D%0A" ++ "Email: " ++ p.email
        ++ "%0D%0A" ++ "Luogo: " ++ p.location ++ "%0D%0A" ++ "Messaggio: "
        ++ p.messaggio).data, ?_,
      [], ("Email: " ++ p.email ++ "%0D%0A" ++ "Luogo: " ++ p.location
        ++ "%0D%0A" ++ "Messaggio: " ++ p.messaggio).data, ?_,
      [], ("Luogo: " ++ p.location ++ "%0D%0A" ++ "Messaggio: "
        ++ p.messaggio).data, ?_,
      [], ("Messaggio: " ++ p.messaggio).data, ?_,
      [], [], ?_, trivial⟩ <;>
    simp [buildMailto, mailtoBodyStr, String.data_append, List.append_assoc]

/-- C10: the `validate_lite` function defined inside the Streamlit test
panel and the one defined inside the CLI test mode are extensionally
equal: at the same current date, both return the same error dictionary on
every input form. -/
theorem validate_lite_modes_agree (today : String) (f : LiteForm) :
    validate_lite today f = validate_lite_cli today f := rfl

/-- C9: `is_valid_email` and `is_valid_phone` return `false` on `None` and
on the empty string, and on every input they behave as on the coerced
value `s or ""`; being total Lean functions into `Bool`, they return a
boolean and raise no exception on any input. -/
theorem validators_total_on_none_and_empty :
    is_valid_email none = false ∧ is_valid_phone none = false
    ∧ is_valid_email (some "") = false ∧ is_valid_phone (some "") = false
    ∧ (∀ s : Option String, is_valid_email s = is_valid_email (some (orEmpty s)))
    ∧ (∀ s : Option String, is_valid_phone s = is_valid_phone (some (orEmpty s))) := by
  refine ⟨by decide, by decide, by decide, by decide, ?_, ?_⟩ <;>
    intro s <;> cases s <;> rfl

/-- C6: a submission with `consent = false` always receives a consent
error from `validate_lite`, whatever the other fields hold. -/
theorem consent_rule (today : String) (f : LiteForm) (h : f.consent = false) :
    "consent" ∈ validate_lite today f := by
  rw [mem_validate_lite]
  exact Or.inr (Or.inr (Or.inr (Or.inr ⟨rfl, by simp [consentFails, h]⟩)))

/-- C6 witness: the no-consent fixture is flagged. -/
theorem consent_rule_witness :
    "consent" ∈ validate_lite todayFix formNoConsent :=
  consent_rule todayFix formNoConsent (by decide)

/-- C4: with the code's comparison basis (lexicographic comparison of the
`YYYY-MM-DD` rendering of the date against the rendering of the current
date), a date strictly before today is flagged as a date error and a date
equal to today or later is not. -/
theorem date_rule_spec (today : String) (f : LiteForm) (d : String)
    (hd : f.date = some d) (hne : d ≠ "") :
    (pyStrLt d today = true → "date" ∈ validate_lite today f)
    ∧ (pyStrLt d today = false → "date" ∉ validate_lite today f) := by
  have hdata : d.data.isEmpty = false := by
    cases hd2 : d.data with
    | nil =>
      exact absurd (by cases d with | mk l => cases hd2; rfl) hne
    | cons c cs => rfl
  have hdf : dateFails today f = pyStrLt d today := by
    rw [dateFails, hd]
    simp [truthy, hdata]
  constructor
  · intro hlt
    rw [mem_validate_lite]
    exact Or.inr (Or.inr (Or.inr (Or.inl ⟨rfl, hdf.trans hlt⟩)))
  · intro hnlt hmem
    rw [mem_validate_lite] at hmem
    rcases hmem with ⟨h, _⟩ | ⟨h, _⟩ | ⟨h, _⟩ | ⟨_, h⟩ | ⟨h, _⟩ <;>
      first
        | exact absurd h (by decide)
        | exact absurd (hdf.symm.trans h) (by simp [hnlt])

/-- C2: a string without `@`, and a string whose part after the first `@`
contains no dot, never pass `is_valid_email`; a string of the shape
`local@sub.tld` built from the regex's character classes with a final
label of length at least 2 always passes; and the four concrete
self-test examples behave as documented. -/
theorem email_validation_spec :
    (∀ s : String, '@' ∉ s.data → is_valid_email (some s) = false)
    ∧ (∀ pre post : List Char, '@' ∉ pre → '.' ∉ post →
        is_valid_email (some (String.mk (pre ++ '@' :: post))) = false)
    ∧ (∀ loc sub tld : String, loc.data ≠ [] →
        (∀ c ∈ loc.data, isLocalChar c = true) → sub.data ≠ [] →
        (∀ c ∈ sub.data, isLabelChar c = true) →
        (∀ c ∈ tld.data, isLabelChar c = true) → 2 ≤ tld.length →
        is_valid_email (some (loc ++ "@" ++ sub ++ "." ++ tld)) = true)
    ∧ is_valid_email (some "mario.rossi@mail.it") = true
    ∧ is_valid_email (some "mario@sub.mail.it") = true
    ∧ is_valid_email (some "mario@") = false
    ∧ is_valid_email (some "mario@mail") = false := by
  refine ⟨?_, ?_, ?_, by decide, by decide, by decide, by decide⟩
  · intro s hat
    cases hb : is_valid_email (some s) with
    | false => rfl
    | true =>
      exfalso
      have hc : emailCore (stripNL s.data) = true := hb
      obtain ⟨pre, dom, hdec, -, -, -⟩ := emailCore_decomp hc
      have hm : '@' ∈ stripNL s.data := by rw [hdec]; simp
      exact hat (mem_of_mem_stripNL hm)
  · intro pre post hat hdot
    cases hb : is_valid_email (some (String.mk (pre ++ '@' :: post))) with
    | false => rfl
    | true =>
      exfalso
      have hc : emailCore (stripNL (pre ++ '@' :: post)) = true := hb
      obtain ⟨pre2, dom, hdec, -, hloc, hdom⟩ := emailCore_decomp hc
      have hat2 : '@' ∉ pre2 := fun hm => absurd (hloc '@' hm) (by decide)
      have hdm : '.' ∈ dom := domGo_dot_mem dom 0 hdom
      rcases stripNL_eq_self_or (pre ++ '@' :: post) with hs | hs
      · rw [hs] at hdec
        obtain ⟨-, hq⟩ := split_at_first_unique hdec hat hat2
        exact hdot (hq ▸ hdm)
      · have heq : pre ++ '@' :: post = pre2 ++ '@' :: (dom ++ ['\n']) := by
          rw [hs, hdec]; simp
        obtain ⟨-, hq⟩ := split_at_first_unique heq hat hat2
        exact hdot (hq ▸ List.mem_append_left _ hdm)
  · intro loc sub tld h1 h2 h3 h4 h5 h6
    have hdata : (loc ++ "@" ++ sub ++ "." ++ tld).data
        = loc.data ++ '@' :: (sub.data ++ '.' :: tld.data) := by
      simp [String.data_append]
    have hnl : ∀ c ∈ loc.data ++ '@' :: (sub.data ++ '.' :: tld.data),
        c ≠ '\n' := by
      intro c hc he
      subst he
      rcases List.mem_append.mp hc with h | h
      · exact absurd (h2 _ h) (by decide)
      · rcases List.mem_cons.mp h with h | h
        · exact absurd h (by decide)
        · rcases List.mem_append.mp h with h | h
          · exact absurd (h4 _ h) (by decide)
          · rcases List.mem_cons.mp h with h | h
            · exact absurd h (by decide)
            · exact absurd (h5 _ h) (by decide)
    show emailCore (stripNL (loc ++ "@" ++ sub ++ "." ++ tld).data) = true
    rw [hdata, stripNL_of_no_newline hnl]
    exact emailCore_pos loc.data sub.data tld.data h1 h2 h3 h4 h5 h6

/-- C2 witness: the negative and positive universal parts applied at
concrete inputs. -/
theorem email_validation_spec_witness :
    is_valid_email (some "nodotdomain") = false
    ∧ is_valid_email (some "user@host.example") = true :=
  ⟨email_validation_spec.1 "nodotdomain" (by decide),
   email_validation_spec.2.2.1 "user" "host" "example" (by decide)
     (by decide) (by decide) (by decide) (by decide) (by decide)⟩

/-- C3 counterexample: the string `"1234567\n"` contains a character
outside `[0-9 +()-]`, yet `is_valid_phone` accepts it, because the `$` of
`PHONE_RE` also matches just before one trailing newline; so "any
character outside the set yields a phone error" fails as stated. -/
theorem phone_trailing_newline_cex :
    "1234567\n".data.all isPhoneChar = false
    ∧ is_valid_phone (some "1234567\n") = true := by decide

/-- C3 (amended): a string shorter than 7 characters always fails phone
validation; a string that still contains a character outside
`[0-9 +()-]` after removing at most one trailing newline (which the
end-of-pattern marker tolerates) always fails; a string of 7 or more
characters drawn only from the set always passes; and the three concrete
self-test examples behave as documented. -/
theorem phone_validation_amended (s : String) :
    (s.length < 7 → is_valid_phone (some s) = false)
    ∧ ((∃ c ∈ stripNL s.data, isPhoneChar c = false) →
        is_valid_phone (some s) = false)
    ∧ (7 ≤ s.length → (∀ c ∈ s.data, isPhoneChar c = true) →
        is_valid_phone (some s) = true)
    ∧ is_valid_phone (some "+39 333 123 4567") = true
    ∧ is_valid_phone (some "(333) 123-4567") = true
    ∧ is_valid_phone (some "123") = false := by
  refine ⟨?_, ?_, ?_, by decide, by decide, by decide⟩
  · intro hlen
    have hlen2 : s.data.length < 7 := hlen
    have h7 : ¬7 ≤ (stripNL s.data).length := by
      have := stripNL_length_le s.data
      omega
    show phoneCore (stripNL s.data) = false
    simp [phoneCore, h7]
  · intro ⟨c, hc, hpc⟩
    have hall : (stripNL s.data).all isPhoneChar = false := by
      rw [List.all_eq_false]
      exact ⟨c, hc, by simp [hpc]⟩
    show phoneCore (stripNL s.data) = false
    simp [phoneCore, hall]
  · intro h7 hall
    have hnl : ∀ c ∈ s.data, c ≠ '\n' := fun c hc he =>
      absurd (hall c hc) (he ▸ by decide)
    have h72 : 7 ≤ s.data.length := h7
    show phoneCore (stripNL s.data) = true
    rw [stripNL_of_no_newline hnl]
    simp [phoneCore, h7, h72, List.all_eq_true.mpr hall]

/-- C3 witness: the amended parts applied at concrete inputs. -/
theorem phone_validation_amended_witness :
    is_valid_phone (some "12345") = false
    ∧ is_valid_phone (some "0776 1234567") = true :=
  ⟨(phone_validation_amended "12345").1 (by decide),
   (phone_validation_amended "0776 1234567").2.2.1 (by decide) (by decide)⟩

/-- C4 witness: a past date is flagged on a concrete form, and the valid
fixture's future date is not. -/
theorem date_rule_spec_witness :
    "date" ∈ validate_lite todayFix { formOk with date := some "2020-05-05" }
    ∧ "date" ∉ validate_lite todayFix formOk :=
  ⟨(date_rule_spec todayFix { formOk with date := some "2020-05-05" }
      "2020-05-05" rfl (by decide)).1 (by decide),
   (date_rule_spec todayFix formOk "2026-01-02" rfl (by decide)).2 (by decide)⟩

/-- C5 counterexample: a whitespace-only honeypot value is non-empty, yet
the submit handler reports no error at all (the submission proceeds to
delivery), because the code tests `hp.strip()`; so "non-empty honeypot →
spam rejection" fails as stated. -/
theorem honeypot_whitespace_cex :
    formInputWsHp.hp ≠ "" ∧ formErrors formInputWsHp = [] := by decide

/-- C5 (amended): a honeypot value containing at least one non-whitespace
character always yields the spam error, distinct from the field errors,
and the submission is rejected (the error list is non-empty) regardless of
the validity of every other field. -/
theorem honeypot_rule_amended (f : FormInput)
    (h : (pyStrip f.hp).data.isEmpty = false) :
    "Rilevato spam." ∈ formErrors f ∧ formErrors f ≠ [] := by
  obtain ⟨rest, hr⟩ := formErrors_spam_cons f h
  rw [hr]
  exact ⟨List.mem_cons_self _ _, by simp⟩

/-- C5 witness: a honeypot holding visible text is rejected even though
every other field of the fixture is valid. -/
theorem honeypot_rule_amended_witness :
    "Rilevato spam." ∈ formErrors { formInputOk with hp := "bot" }
    ∧ formErrors { formInputOk with hp := "bot" } ≠ [] :=
  honeypot_rule_amended { formInputOk with hp := "bot" } (by decide)

/-- C7: `validate_lite` evaluates every field rule independently: each of
the five keys is in the result exactly when its own rule fails, no other
key ever appears, and the result is empty exactly when every rule passes;
the embedding is a total function, mirroring that the Python code throws
no exception on malformed strings (its only `try` guards a string
comparison that cannot throw). -/
theorem validate_reports_all_failures (today : String) (f : LiteForm) :
    ("name" ∈ validate_lite today f ↔ nameFails f = true)
    ∧ ("email" ∈ validate_lite today f ↔ emailFails f = true)
    ∧ ("phone" ∈ validate_lite today f ↔ phoneFails f = true)
    ∧ ("date" ∈ validate_lite today f ↔ dateFails today f = true)
    ∧ ("consent" ∈ validate_lite today f ↔ consentFails f = true)
    ∧ (∀ k, k ∈ validate_lite today f →
        k = "name" ∨ k = "email" ∨ k = "phone" ∨ k = "date" ∨ k = "consent")
    ∧ (validate_lite today f = [] ↔
        nameFails f = false ∧ emailFails f = false ∧ phoneFails f = false
          ∧ dateFails today f = false ∧ consentFails f = false) := by
  refine ⟨?_, ?_, ?_, ?_, ?_, ?_, validate_lite_nil_iff today f⟩
  · rw [mem_validate_lite]; simp
  · rw [mem_validate_lite]; simp
  · rw [mem_validate_lite]; simp
  · rw [mem_validate_lite]; simp
  · rw [mem_validate_lite]; simp
  · intro k hk
    rw [mem_validate_lite] at hk
    tauto

/-- C7 witness: on the valid fixture the error list is empty. -/
theorem validate_reports_all_failures_witness :
    validate_lite todayFix formOk = [] :=
  (validate_reports_all_failures todayFix formOk).2.2.2.2.2.2.mpr
    ⟨by decide, by decide, by decide, by decide, by decide⟩

end Landing
